import Mathlib

/-!
# Verification of the synced-cron scheduler (src/synced-cron-server.js)

A shallow embedding of the scheduler logic of `synced-cron-server.js`:

* the per-cycle scheduling step of `SyncedCron._laterSetTimeout`,
* the re-scheduling step of `SyncedCron._laterSetInterval`,
* the execution coordinator `SyncedCron._entryWrapper` over an explicit
  model of the Mongo collection with its unique `(intendedAt, name)` index,
* the registry operations `SyncedCron.start` / `SyncedCron.pause` and the
  TTL index setup from the `Meteor.startup` block.

JavaScript millisecond timestamps are modelled as `Int` in the timer code
(differences may be negative) and as `Nat` (epoch milliseconds) in the
execution coordinator.  Fallible JavaScript code is modelled with
`Except`; a thrown exception is an `Except.error`.
-/

namespace SyncedCron

/-- A log event: (level, message), as produced by the logger returned by
`createLogger` (levels are "info", "warn", "error", "debug"). -/
abbrev LogEvt := String × String

/-! ## The Recurring Timer: `SyncedCron._laterSetTimeout`

The closure `scheduleTimeout` (lines 356-379 of `synced-cron-server.js`)
computes `next = s.next(2, now)` and then either:

* returns silently when `next[0]` does not exist,
* computes `diff = next[0] - now`; when `diff < 1000` it re-reads
  `next[1].getTime()` — which **throws a TypeError when `next[1]` is
  undefined** (only `next[0]` is guarded) — and otherwise replaces
  `(diff, intendedAt)` by the second occurrence,
* schedules the callback `fn(intendedAt)` after `diff` ms when
  `diff < 2147483647`, and otherwise schedules a re-run of
  `scheduleTimeout` itself after exactly `2147483647` ms.

The outcome of one run of `scheduleTimeout` is modelled by
`TimeoutOutcome`; the occurrence list returned by the Later query
`s.next(2, now)` is modelled by a `List Int` of timestamps
(empty = no occurrence, singleton = exactly one occurrence left). -/

/-- Result of one run of the `scheduleTimeout` closure inside
`SyncedCron._laterSetTimeout`. -/
inductive TimeoutOutcome where
  /-- Branch `if (!next[0]) return;` — schedule exhausted, return silently. -/
  | noMore : TimeoutOutcome
  /-- The JavaScript `TypeError` raised by `next[1].getTime()` when the
  minimum-fire-delay branch is taken but no second occurrence exists. -/
  | typeError : TimeoutOutcome
  /-- Branch `setTimeout(async ..., diff)` invoking `fn(intendedAt)`:
  the callback will fire after `delay` ms with the given intended
  occurrence timestamp. -/
  | fire (delay : Int) (intendedAt : Int) : TimeoutOutcome
  /-- Branch `setTimeout(scheduleTimeout, 2147483647)`: an intermediate
  wake-up after `delay` ms that only re-runs `scheduleTimeout` and does
  not invoke the callback. -/
  | reeval (delay : Int) : TimeoutOutcome
  deriving Repr, DecidableEq

/-- One run of the `scheduleTimeout` closure of
`SyncedCron._laterSetTimeout` (lines 356-379), as a function of `now`
(`Date.now()`) and the occurrence list `next = s.next(2, now)`. -/
def scheduleTimeoutStep (now : Int) (next : List Int) : TimeoutOutcome :=
  match next with
  | [] => .noMore
  | t0 :: rest =>
    let diff := t0 - now
    let intendedAt := t0
    if diff < 1000 then
      match rest with
      | [] => .typeError
      | t1 :: _ =>
        let diff1 := t1 - now
        let intendedAt1 := t1
        if diff1 < 2147483647 then .fire diff1 intendedAt1
        else .reeval 2147483647
    else
      if diff < 2147483647 then .fire diff intendedAt
      else .reeval 2147483647

/-! ## The interval chain: `SyncedCron._laterSetInterval`

The closure `scheduleTimeout` inside `_laterSetInterval` (lines 319-329)
is the callback handed to `_laterSetTimeout`.  When the done-flag is not
set it awaits `fn(intendedAt)`, catching and logging any exception so
that a failing job cannot break the chain, and then unconditionally
re-arms the next `_laterSetTimeout`. -/

/-- One run of the `scheduleTimeout` closure of
`SyncedCron._laterSetInterval` (lines 319-329), as a function of the
done-flag and the outcome of `await fn(intendedAt)` (`Except.error e`
models `fn` having thrown `e`).  Returns the log events emitted and
whether the next `_laterSetTimeout` was armed. -/
def intervalTimeoutStep (done : Bool) (fnOutcome : Except String Unit) :
    List LogEvt × Bool :=
  if done then ([], false)
  else
    match fnOutcome with
    | .ok _ => ([], true)
    | .error e => ([("error", "Exception running scheduled job " ++ e)], true)

/-! ## The Run Ledger: the `cronHistory` Mongo collection

The collection holds one document per attempted occurrence, with a
unique index on `(intendedAt, name)` (created in the `Meteor.startup`
block, lines 98-101).  `insertAsync` on a key collision rejects with a
MongoServerError whose `code` is 11000.  Documents are identified by
their `_id`; the model assigns consecutive natural numbers. -/

/-- A document of the `cronHistory` collection (`jobHistory` in
`_entryWrapper`): the Run Record of one attempted occurrence. -/
structure RunRecord where
  id : Nat
  intendedAt : Nat
  name : String
  startedAt : Nat
  finishedAt : Option Nat
  result : Option String
  error : Option String
  deriving Repr, DecidableEq

/-- The state of the `cronHistory` collection: its documents, in
insertion order, and the next `_id` to hand out. -/
structure Store where
  records : List RunRecord
  nextId : Nat
  deriving Repr, DecidableEq

/-- The empty collection. -/
def emptyStore : Store := ⟨[], 0⟩

/-- The predicate of the unique `(intendedAt, name)` index: does `r`
collide with the key? -/
def keyMatch (iAt : Nat) (nm : String) (r : RunRecord) : Bool :=
  r.intendedAt == iAt && r.name == nm

/-- Does the collection already hold a document with the given
`(intendedAt, name)` key? -/
def hasKey (st : Store) (iAt : Nat) (nm : String) : Bool :=
  st.records.any (keyMatch iAt nm)

/-- Model of `self._collection.insertAsync(jobHistory)` under the unique
`(intendedAt, name)` index: a key collision rejects with error code
11000, otherwise the document is stored and its fresh `_id` returned. -/
def insertRecord (st : Store) (iAt : Nat) (nm : String) (startedAt : Nat) :
    Except Nat (Nat × Store) :=
  if hasKey st iAt nm then .error 11000
  else
    .ok (st.nextId,
      ⟨st.records ++ [⟨st.nextId, iAt, nm, startedAt, none, none, none⟩],
       st.nextId + 1⟩)

/-- Model of the success-path
`updateAsync({_id}, {$set: {finishedAt, result}})` (lines 264-272). -/
def updateResult (st : Store) (rid : Nat) (fin : Nat) (output : String) :
    Store :=
  ⟨st.records.map (fun r =>
      if r.id == rid then { r with finishedAt := some fin, result := some output }
      else r),
   st.nextId⟩

/-- Model of the failure-path
`updateAsync({_id}, {$set: {finishedAt, error}})` (lines 277-285). -/
def updateError (st : Store) (rid : Nat) (fin : Nat) (e : String) : Store :=
  ⟨st.records.map (fun r =>
      if r.id == rid then { r with finishedAt := some fin, error := some e }
      else r),
   st.nextId⟩

/-- Number of documents carrying the given `(intendedAt, name)` key. -/
def keyCount (st : Store) (iAt : Nat) (nm : String) : Nat :=
  (st.records.filter (keyMatch iAt nm)).length

/-- The first document carrying the given `(intendedAt, name)` key. -/
def findByKey (st : Store) (iAt : Nat) (nm : String) : Option RunRecord :=
  st.records.find? (keyMatch iAt nm)

/-! ## The Execution Coordinator: `SyncedCron._entryWrapper` -/

/-- A registered job entry, after `SyncedCron.add` has applied the
`persist` default.  `job` takes `(intendedAt, name)` and either returns
a value or throws (`Except.error`). -/
structure Entry where
  name : String
  persist : Bool
  job : Nat → String → Except String String

/-- Model of `intendedAt.setMilliseconds(0)` (line 233) on an epoch
timestamp in milliseconds. -/
def truncMs (t : Nat) : Nat := t / 1000 * 1000

/-- The try/catch block at lines 257-287 of `_entryWrapper`: log the
start, run `entry.job(intendedAt, entry.name)`, and on normal return
(resp. exception) log and — when a Run Record was claimed, i.e. `rid` is
present, which is exactly the `entry.persist` case of the source —
update it with `finishedAt` and `result` (resp. `error`).  `finishNow`
stands for the `new Date()` taken at completion.  The final `Bool`
records that the job function was invoked. -/
def runJob (entry : Entry) (intendedAt : Nat) (finishNow : Nat)
    (rid : Option Nat) (st : Store) : Store × List LogEvt × Bool :=
  match entry.job intendedAt entry.name with
  | .ok output =>
    let st1 := match rid with
      | some i => updateResult st i finishNow output
      | none => st
    (st1,
     [("info", "Starting \"" ++ entry.name ++ "\"."),
      ("info", "Finished \"" ++ entry.name ++ "\".")],
     true)
  | .error e =>
    let st1 := match rid with
      | some i => updateError st i finishNow e
      | none => st
    (st1,
     [("info", "Starting \"" ++ entry.name ++ "\"."),
      ("error", "Exception \"" ++ entry.name ++ "\" " ++ e)],
     true)

/-- The wrapped callback returned by `SyncedCron._entryWrapper(entry)`
(lines 228-289), as a state transformer on the collection.  `startNow`
stands for the `new Date()` taken at claim time, `finishNow` for the one
taken at completion; `intendedAt0` is the raw intended timestamp handed
over by the timer.  Returns the new collection state, the log events,
and whether the job function ran; `Except.error code` models an
exception propagating out of the callback (the re-throw of a non-11000
insert error at line 253). -/
def entryWrapper (entry : Entry) (startNow finishNow : Nat)
    (intendedAt0 : Nat) (st : Store) :
    Except Nat (Store × List LogEvt × Bool) :=
  let intendedAt := truncMs intendedAt0
  if entry.persist then
    match insertRecord st intendedAt entry.name startNow with
    | .error code =>
      if code == 11000 then
        .ok (st, [("info", "Not running \"" ++ entry.name ++ "\" again.")],
             false)
      else .error code
    | .ok (rid, st1) => .ok (runJob entry intendedAt finishNow (some rid) st1)
  else
    .ok (runJob entry intendedAt finishNow none st)

/-! ## The Job Registry: `SyncedCron.start` and `SyncedCron.pause`

The registry state models `SyncedCron._entries` (each entry with its
`_timer` handle, when one has been assigned) and the `running` flag.  To
reason about timer creation and cancellation, the model also tracks the
next fresh timer id and the list of live (created and not yet cleared)
timers; `scheduleEntry` (lines 123-130) creates a fresh
`_laterSetInterval` timer and stores its handle on the entry, without
clearing any previously stored handle. -/

/-- A value of `SyncedCron._entries`: the job name together with the
`_timer` handle, `none` while no timer has been assigned. -/
structure SchedEntry where
  name : String
  timer : Option Nat
  deriving Repr, DecidableEq

/-- The scheduler state: the entries of `SyncedCron._entries`, the
`running` flag, the next fresh timer id and the ids of live timers. -/
structure SchedulerState where
  entries : List SchedEntry
  running : Bool
  nextTimerId : Nat
  liveTimers : List Nat
  deriving Repr, DecidableEq

/-- The loop body of `SyncedCron.start` (lines 162-167): call
`scheduleEntry` on every entry in turn, threading the fresh-timer
counter and the live-timer list, and returning the updated entries. -/
def startAux : Nat → List Nat → List SchedEntry →
    Nat × List Nat × List SchedEntry
  | nid, live, [] => (nid, live, [])
  | nid, live, e :: es =>
    let r := startAux (nid + 1) (live ++ [nid]) es
    (r.1, r.2.1, { e with timer := some nid } :: r.2.2)

/-- Model of `SyncedCron.start` (lines 159-169): inside `Meteor.startup`
(run immediately once the process is up), call `scheduleEntry` on
**every** registered entry and set `running := true`.  There is no
filter on entries that already have a timer, and no previously created
timer is cleared. -/
def start (st : SchedulerState) : SchedulerState :=
  let r := startAux st.nextTimerId st.liveTimers st.entries
  ⟨r.2.2, true, r.1, r.2.1⟩

/-- The `forEach` loop of `SyncedCron.pause` (lines 206-208):
`entry._timer.clear()` for every entry.  Reading `.clear` off an
undefined `_timer` throws a TypeError; a successful `clear()` removes
the timer from the live set. -/
def clearTimers : List Nat → List SchedEntry → Except String (List Nat)
  | live, [] => .ok live
  | _, ⟨_, none⟩ :: _ =>
    .error "TypeError: Cannot read properties of undefined (reading clear)"
  | live, ⟨_, some tid⟩ :: es =>
    clearTimers (live.filter (fun t => t ≠ tid)) es

/-- Model of `SyncedCron.pause` (lines 204-211): when `running`, clear
every entry timer and set `running := false`; otherwise do nothing at
all. -/
def pause (st : SchedulerState) : Except String SchedulerState :=
  if st.running then
    match clearTimers st.liveTimers st.entries with
    | .error e => .error e
    | .ok live => .ok ⟨st.entries, false, st.nextTimerId, live⟩
  else .ok st

/-! ## TTL index setup in the `Meteor.startup` block -/

/-- Line 83: the least retention TTL the startup block will use. -/
def minTTL : Int := 300

/-- The TTL-index part of the `Meteor.startup` block (lines 103-112):
`if (options.collectionTTL) { if (options.collectionTTL > minTTL)
createIndex(startedAt, expireAfterSeconds) else log.warn(...) }`.
Numeric truthiness of `options.collectionTTL` is `≠ 0`.  Returns the
`expireAfterSeconds` value of the TTL index, if one is created, together
with the emitted log events. -/
def setupTTLIndex (collectionTTL : Int) : Option Int × List LogEvt :=
  if collectionTTL ≠ 0 then
    if collectionTTL > minTTL then (some collectionTTL, [])
    else
      (none,
       [("warn",
         "Not going to use a TTL that is shorter than: " ++ toString minTTL)])
  else (none, [])

/-! ## Derived abbreviations used in the statements below -/

/-- The Run Record as it stands after a completed persisted run that was
claimed with `_id = rid`: on normal return of the job `result` is set
and `error` unset, on an exception `error` is set and `result` unset. -/
def completedRecord (entry : Entry) (rid iAt s f : Nat) : RunRecord :=
  match entry.job iAt entry.name with
  | .ok v => ⟨rid, iAt, entry.name, s, some f, some v, none⟩
  | .error e => ⟨rid, iAt, entry.name, s, some f, none, some e⟩

/-- The log events emitted by the run-and-record block for one invocation
of the job function. -/
def runLogs (entry : Entry) (iAt : Nat) : List LogEvt :=
  match entry.job iAt entry.name with
  | .ok _ =>
    [("info", "Starting \"" ++ entry.name ++ "\"."),
     ("info", "Finished \"" ++ entry.name ++ "\".")]
  | .error e =>
    [("info", "Starting \"" ++ entry.name ++ "\"."),
     ("error", "Exception \"" ++ entry.name ++ "\" " ++ e)]

/-- The `TestEntry` of `synced-cron-tests.js`: a persisted job returning
the string "ran". -/
def testEntry : Entry := ⟨"Test Job", true, fun _ _ => .ok "ran"⟩

/-- The failing entry of the `Exceptions work` test: a persisted job that
always throws. -/
def failEntry : Entry := ⟨"Test Job", true, fun _ _ => .error "Haha, gotcha!"⟩

/-- A freshly registered scheduler state: one entry without a timer
handle, not running, no timer created yet. -/
def oneEntryState : SchedulerState := ⟨[⟨"Test Job", none⟩], false, 0, []⟩

end SyncedCron

namespace SyncedCron

/-! ### Helper lemmas -/

/-- Mapping a function that fixes every element of a list is the
identity. -/
theorem map_id_of_mem {α : Type} (l : List α) (f : α → α)
    (h : ∀ a ∈ l, f a = a) : l.map f = l := by
  induction l with
  | nil => rfl
  | cons a as ih =>
    rw [List.map_cons, h a (List.mem_cons_self a as),
        ih (fun b hb => h b (List.mem_cons_of_mem a hb))]

/-- `find?` over a list ending in the only matching element returns that
element. -/
theorem find?_append_singleton (p : RunRecord → Bool) (l : List RunRecord)
    (x : RunRecord) (h : ∀ r ∈ l, p r = false) (hx : p x = true) :
    (l ++ [x]).find? p = some x := by
  induction l with
  | nil => simp [List.find?, hx]
  | cons a as ih =>
    have ha : p a = false := h a (List.mem_cons_self a as)
    simp only [List.cons_append, List.find?, ha]
    exact ih (fun r hr => h r (List.mem_cons_of_mem a hr))

/-- When the collection has no document with the key, every document
fails the key predicate. -/
theorem hasKey_false_forall {st : Store} {iAt : Nat} {nm : String}
    (h : hasKey st iAt nm = false) :
    ∀ r ∈ st.records, keyMatch iAt nm r = false := by
  intro r hr
  cases hkm : keyMatch iAt nm r
  · rfl
  · exfalso
    have hany : st.records.any (keyMatch iAt nm) = true :=
      List.any_eq_true.mpr ⟨r, hr, hkm⟩
    rw [hasKey, hany] at h
    exact absurd h (by simp)

/-- A completed Run Record carries the key it was claimed under. -/
theorem keyMatch_completedRecord (entry : Entry) (rid iAt s f : Nat) :
    keyMatch iAt entry.name (completedRecord entry rid iAt s f) = true := by
  cases h : entry.job iAt entry.name <;> simp [completedRecord, keyMatch, h]

/-- A completed Run Record carries the `_id` it was claimed under. -/
theorem completedRecord_id (entry : Entry) (rid iAt s f : Nat) :
    (completedRecord entry rid iAt s f).id = rid := by
  cases h : entry.job iAt entry.name <;> simp [completedRecord, h]

/-- The successful-claim path of `_entryWrapper`: on a well-formed
collection without the key, the wrapped callback claims a fresh Run
Record, runs the job and completes the record; the collection ends with
the completed record appended. -/
theorem entryWrapper_claims (entry : Entry) (s f t : Nat) (st : Store)
    (hwf : ∀ r ∈ st.records, r.id < st.nextId)
    (hp : entry.persist = true)
    (hk : hasKey st (truncMs t) entry.name = false) :
    entryWrapper entry s f t st =
      .ok (⟨st.records ++ [completedRecord entry st.nextId (truncMs t) s f],
            st.nextId + 1⟩,
           runLogs entry (truncMs t), true) := by
  cases h : entry.job (truncMs t) entry.name with
  | ok v =>
    have hmap : st.records.map
        (fun r => if r.id = st.nextId
          then { r with finishedAt := some f, result := some v } else r) =
        st.records :=
      map_id_of_mem _ _ (fun r hr => if_neg (Nat.ne_of_lt (hwf r hr)))
    simp [entryWrapper, hp, insertRecord, hk, runJob, h, updateResult,
          List.map_append, hmap, completedRecord, runLogs]
  | error e =>
    have hmap : st.records.map
        (fun r => if r.id = st.nextId
          then { r with finishedAt := some f, error := some e } else r) =
        st.records :=
      map_id_of_mem _ _ (fun r hr => if_neg (Nat.ne_of_lt (hwf r hr)))
    simp [entryWrapper, hp, insertRecord, hk, runJob, h, updateError,
          List.map_append, hmap, completedRecord, runLogs]

/-- The duplicate-key path of `_entryWrapper`: on a collection already
holding the key, the wrapped callback logs, does not run the job and
leaves the collection unchanged. -/
theorem entryWrapper_dup (entry : Entry) (s f t : Nat) (st : Store)
    (hp : entry.persist = true)
    (hk : hasKey st (truncMs t) entry.name = true) :
    entryWrapper entry s f t st =
      .ok (st, [("info", "Not running \"" ++ entry.name ++ "\" again.")],
           false) := by
  simp [entryWrapper, hp, insertRecord, hk]

/-! ### The claims -/

/-- C1: for a job with `persist = true`, invoking the wrapped callback of
`_entryWrapper` twice with the same `(t, name)` yields exactly one Run
Record and one invocation of the job function; the second invocation hits
the duplicate-key conflict on the unique `(intendedAt, name)` key, logs,
does not run the job, leaves the store unchanged and the single Run
Record keeps the identity (`_id = 0`) assigned by the first invocation. -/
theorem entryWrapper_exactly_once (entry : Entry) (t n1 f1 n2 f2 : Nat)
    (hp : entry.persist = true) :
    ∃ st1 r,
      entryWrapper entry n1 f1 t emptyStore =
        .ok (st1, runLogs entry (truncMs t), true) ∧
      entryWrapper entry n2 f2 t st1 =
        .ok (st1, [("info", "Not running \"" ++ entry.name ++ "\" again.")],
             false) ∧
      keyCount st1 (truncMs t) entry.name = 1 ∧
      findByKey st1 (truncMs t) entry.name = some r ∧
      r.id = 0 := by
  refine ⟨⟨[completedRecord entry 0 (truncMs t) n1 f1], 1⟩,
          completedRecord entry 0 (truncMs t) n1 f1, ?_, ?_, ?_, ?_, ?_⟩
  · have h1 := entryWrapper_claims entry n1 f1 t emptyStore
      (by simp [emptyStore]) hp rfl
    simpa [emptyStore] using h1
  · exact entryWrapper_dup entry n2 f2 t _ hp
      (by simp [hasKey, keyMatch_completedRecord])
  · simp [keyCount, keyMatch_completedRecord]
  · simp [findByKey, List.find?, keyMatch_completedRecord]
  · exact completedRecord_id entry 0 (truncMs t) n1 f1

/-- Witness for C1: the test entry run twice at intended time 1234567. -/
theorem entryWrapper_exactly_once_witness :
    testEntry.persist = true ∧
    ∃ st1 r,
      entryWrapper testEntry 5 6 1234567 emptyStore =
        .ok (st1, runLogs testEntry (truncMs 1234567), true) ∧
      entryWrapper testEntry 7 8 1234567 st1 =
        .ok (st1,
             [("info", "Not running \"" ++ testEntry.name ++ "\" again.")],
             false) ∧
      keyCount st1 (truncMs 1234567) testEntry.name = 1 ∧
      findByKey st1 (truncMs 1234567) testEntry.name = some r ∧
      r.id = 0 :=
  ⟨rfl, entryWrapper_exactly_once testEntry 1234567 5 6 7 8 rfl⟩

/-- C6: a persisted run that reaches completion ends with `result` set and
`error` unset when the job function returns, with `error` set and
`result` unset when it fails, and — on a well-formed collection in which
no record has both fields set — no record of the resulting collection has
both set. -/
theorem runRecord_result_error_exclusive (entry : Entry) (s f t : Nat)
    (st : Store)
    (hwf : ∀ r ∈ st.records, r.id < st.nextId)
    (hp : entry.persist = true)
    (hk : hasKey st (truncMs t) entry.name = false)
    (hin : ∀ r ∈ st.records, ¬(r.result.isSome ∧ r.error.isSome)) :
    ∃ st1,
      entryWrapper entry s f t st =
        .ok (st1, runLogs entry (truncMs t), true) ∧
      (∀ v, entry.job (truncMs t) entry.name = .ok v →
        findByKey st1 (truncMs t) entry.name =
          some ⟨st.nextId, truncMs t, entry.name, s, some f, some v, none⟩) ∧
      (∀ e, entry.job (truncMs t) entry.name = .error e →
        findByKey st1 (truncMs t) entry.name =
          some ⟨st.nextId, truncMs t, entry.name, s, some f, none, some e⟩) ∧
      (∀ r ∈ st1.records, ¬(r.result.isSome ∧ r.error.isSome)) := by
  have hfind :
      findByKey
        ⟨st.records ++ [completedRecord entry st.nextId (truncMs t) s f],
         st.nextId + 1⟩ (truncMs t) entry.name =
        some (completedRecord entry st.nextId (truncMs t) s f) := by
    simp only [findByKey]
    exact find?_append_singleton _ st.records _ (hasKey_false_forall hk)
      (keyMatch_completedRecord entry st.nextId (truncMs t) s f)
  refine ⟨⟨st.records ++ [completedRecord entry st.nextId (truncMs t) s f],
          st.nextId + 1⟩,
          entryWrapper_claims entry s f t st hwf hp hk, ?_, ?_, ?_⟩
  · intro v hv
    rw [hfind]
    simp [completedRecord, hv]
  · intro e he
    rw [hfind]
    simp [completedRecord, he]
  · intro r hr
    simp only [List.mem_append, List.mem_singleton] at hr
    rcases hr with hr | hr
    · exact hin r hr
    · subst hr
      cases h : entry.job (truncMs t) entry.name <;>
        simp [completedRecord, h]

/-- Witness for C6: the test entry on the empty collection. -/
theorem runRecord_result_error_exclusive_witness :
    ∃ st1,
      entryWrapper testEntry 5 6 777 emptyStore =
        .ok (st1, runLogs testEntry (truncMs 777), true) ∧
      (∀ v, testEntry.job (truncMs 777) testEntry.name = .ok v →
        findByKey st1 (truncMs 777) testEntry.name =
          some ⟨emptyStore.nextId, truncMs 777, testEntry.name, 5, some 6,
                some v, none⟩) ∧
      (∀ e, testEntry.job (truncMs 777) testEntry.name = .error e →
        findByKey st1 (truncMs 777) testEntry.name =
          some ⟨emptyStore.nextId, truncMs 777, testEntry.name, 5, some 6,
                none, some e⟩) ∧
      (∀ r ∈ st1.records, ¬(r.result.isSome ∧ r.error.isSome)) :=
  runRecord_result_error_exclusive testEntry 5 6 777 emptyStore
    (by simp [emptyStore]) rfl rfl (by simp [emptyStore])

/-- C7: when the job function of a persisted entry throws, the failure is
contained: the wrapped callback returns normally (`Except.ok`, so nothing
propagates into the timer chain), the Run Record ends with `error` set
and `result` unset, an error-level log event is emitted, and the
`_laterSetInterval` step re-arms the next timeout whatever the outcome of
the callback. -/
theorem jobFailure_contained (entry : Entry) (s f t : Nat) (e : String)
    (hp : entry.persist = true)
    (hfail : entry.job (truncMs t) entry.name = .error e) :
    entryWrapper entry s f t emptyStore =
      .ok (⟨[⟨0, truncMs t, entry.name, s, some f, none, some e⟩], 1⟩,
           [("info", "Starting \"" ++ entry.name ++ "\"."),
            ("error", "Exception \"" ++ entry.name ++ "\" " ++ e)],
           true) ∧
    (∀ o : Except String Unit, (intervalTimeoutStep false o).2 = true) := by
  constructor
  · have h1 := entryWrapper_claims entry s f t emptyStore
      (by simp [emptyStore]) hp rfl
    simpa [emptyStore, completedRecord, runLogs, hfail] using h1
  · intro o
    cases o <;> rfl

/-- Witness for C7: the always-throwing entry of the `Exceptions work`
test. -/
theorem jobFailure_contained_witness :
    entryWrapper failEntry 5 6 777 emptyStore =
      .ok (⟨[⟨0, truncMs 777, failEntry.name, 5, some 6, none,
             some "Haha, gotcha!"⟩], 1⟩,
           [("info", "Starting \"" ++ failEntry.name ++ "\"."),
            ("error",
             "Exception \"" ++ failEntry.name ++ "\" " ++ "Haha, gotcha!")],
           true) ∧
    (∀ o : Except String Unit, (intervalTimeoutStep false o).2 = true) :=
  jobFailure_contained failEntry 5 6 777 "Haha, gotcha!" rfl rfl

/-- C9: `_entryWrapper` truncates the intended timestamp to whole-second
precision before claiming, so two intended timestamps in the same whole
second yield the same `(intendedAt, name)` identity: the second
invocation hits the duplicate-key conflict and the collection keeps a
single Run Record. -/
theorem intendedAt_second_precision (entry : Entry) (t1 t2 s1 f1 s2 f2 : Nat)
    (hp : entry.persist = true)
    (hsec : t1 / 1000 = t2 / 1000) :
    truncMs t1 = truncMs t2 ∧
    ∃ st1,
      entryWrapper entry s1 f1 t1 emptyStore =
        .ok (st1, runLogs entry (truncMs t1), true) ∧
      entryWrapper entry s2 f2 t2 st1 =
        .ok (st1, [("info", "Not running \"" ++ entry.name ++ "\" again.")],
             false) ∧
      st1.records.length = 1 := by
  have htr : truncMs t1 = truncMs t2 := by
    unfold truncMs
    rw [hsec]
  refine ⟨htr, ⟨[completedRecord entry 0 (truncMs t1) s1 f1], 1⟩, ?_, ?_, rfl⟩
  · have h1 := entryWrapper_claims entry s1 f1 t1 emptyStore
      (by simp [emptyStore]) hp rfl
    simpa [emptyStore] using h1
  · have hk2 : hasKey ⟨[completedRecord entry 0 (truncMs t1) s1 f1], 1⟩
        (truncMs t2) entry.name = true := by
      rw [← htr]
      simp [hasKey, keyMatch_completedRecord]
    exact entryWrapper_dup entry s2 f2 t2 _ hp hk2

/-- Witness for C9: timestamps 1234111 and 1234999 fall within second
1234 and dedup to one Run Record. -/
theorem intendedAt_second_precision_witness :
    truncMs 1234111 = truncMs 1234999 ∧
    ∃ st1,
      entryWrapper testEntry 5 6 1234111 emptyStore =
        .ok (st1, runLogs testEntry (truncMs 1234111), true) ∧
      entryWrapper testEntry 7 8 1234999 st1 =
        .ok (st1,
             [("info", "Not running \"" ++ testEntry.name ++ "\" again.")],
             false) ∧
      st1.records.length = 1 :=
  intendedAt_second_precision testEntry 1234111 1234999 5 6 7 8 rfl (by decide)

/-- C2: the scheduling step of `_laterSetTimeout`, run when the occurrence
query returns a single occurrence less than one second away (here: a
one-off occurrence 500 ms after `now = 0`) and no second occurrence,
raises a TypeError (`next[1].getTime()` on `undefined`) instead of
returning without error. -/
theorem laterSetTimeout_single_imminent_occurrence_throws :
    scheduleTimeoutStep 0 [500] = .typeError := by
  rfl

/-- C4: in every scheduling cycle in which two occurrences were queried and
the first is less than 1000 ms away, the first occurrence is discarded:
provided the delay of the second occurrence is below the `setTimeout`
ceiling, the timer is scheduled on that delay and the callback
receives the second occurrence as its intended timestamp. -/
theorem scheduleTimeoutStep_min_fire_delay (now t0 t1 : Int) (rest : List Int)
    (h0 : t0 - now < 1000) (h1 : t1 - now < 2147483647) :
    scheduleTimeoutStep now (t0 :: t1 :: rest) = .fire (t1 - now) t1 := by
  simp [scheduleTimeoutStep, h0, h1]

/-- Witness for C4: at `now = 0` with occurrences `[400, 5000]`, the step
schedules a fire after 5000 ms with intended timestamp 5000. -/
theorem scheduleTimeoutStep_min_fire_delay_witness :
    scheduleTimeoutStep 0 [400, 5000] = .fire 5000 5000 :=
  scheduleTimeoutStep_min_fire_delay 0 400 5000 [] (by decide) (by decide)

/-- C5: in every scheduling cycle, (a) if the delay of the first occurrence
survives the minimum-fire-delay rule but exceeds the ceiling 2147483647 ms,
the step schedules a wake-up after exactly the ceiling which only re-runs
the scheduling computation and never fires the callback; (b) likewise when
the second occurrence is selected and its delay exceeds the ceiling; (c)
the callback is scheduled to fire only with a delay strictly below the
ceiling. -/
theorem scheduleTimeoutStep_ceiling :
    (∀ (now t0 : Int) (rest : List Int), 1000 ≤ t0 - now →
      2147483647 < t0 - now →
      scheduleTimeoutStep now (t0 :: rest) = .reeval 2147483647) ∧
    (∀ (now t0 t1 : Int) (rest : List Int), t0 - now < 1000 →
      2147483647 < t1 - now →
      scheduleTimeoutStep now (t0 :: t1 :: rest) = .reeval 2147483647) ∧
    (∀ (now : Int) (next : List Int) (d i : Int),
      scheduleTimeoutStep now next = .fire d i → d < 2147483647) := by
  refine ⟨?_, ?_, ?_⟩
  · intro now t0 rest h1 h2
    simp [scheduleTimeoutStep, not_lt.mpr h1, not_lt.mpr (le_of_lt h2)]
  · intro now t0 t1 rest h1 h2
    simp [scheduleTimeoutStep, h1, not_lt.mpr (le_of_lt h2)]
  · intro now next d i h
    match next with
    | [] => simp [scheduleTimeoutStep] at h
    | t0 :: rest =>
      simp only [scheduleTimeoutStep] at h
      by_cases hd : t0 - now < 1000
      · simp only [hd, if_true] at h
        match rest with
        | [] => simp at h
        | t1 :: _ =>
          by_cases hc : t1 - now < 2147483647
          · simp only [hc, if_true, TimeoutOutcome.fire.injEq] at h
            omega
          · simp [hc] at h
      · by_cases hc : t0 - now < 2147483647
        · simp only [hd, if_false, hc, if_true, TimeoutOutcome.fire.injEq] at h
          omega
        · simp [hd, hc] at h

/-- Witness for C5: at `now = 0`, a sole occurrence 3·10⁹ ms away yields a
re-evaluation wake-up at exactly the ceiling (parts (a),(b)), and the fire
outcome of `[400, 5000]` has its delay below the ceiling (part (c)). -/
theorem scheduleTimeoutStep_ceiling_witness :
    scheduleTimeoutStep 0 [3000000000] = .reeval 2147483647 ∧
    scheduleTimeoutStep 0 [400, 3000000000] = .reeval 2147483647 ∧
    (5000 : Int) < 2147483647 :=
  ⟨scheduleTimeoutStep_ceiling.1 0 3000000000 [] (by decide) (by decide),
   scheduleTimeoutStep_ceiling.2.1 0 400 3000000000 [] (by decide) (by decide),
   scheduleTimeoutStep_ceiling.2.2 0 [400, 5000] 5000 5000
     (scheduleTimeoutStep_min_fire_delay 0 400 5000 [] (by decide) (by decide))⟩

/-- C3 counterexample: on a state with one registered entry, the first
`start()` creates one timer, and a second `start()` — the scheduler now
running — creates an additional timer for the entry (two live timers, and
a state change), refuting the claim that a repeated `start()` creates no
additional timer for any entry. -/
theorem start_not_idempotent_counterexample :
    (start oneEntryState).liveTimers.length = 1 ∧
    (start (start oneEntryState)).liveTimers.length = 2 ∧
    start (start oneEntryState) ≠ start oneEntryState := by
  decide

/-- C3 amended: `start()` calls `scheduleEntry` on **every** registered
entry — there is no filter on entries already started — so it sets the
running state, keeps the set of registered names, and creates exactly one
fresh timer per registered entry on every call, without cancelling any
previously created timer (the old live timers remain live).  It is
therefore not idempotent: each repeated `start()` adds one more live
timer per entry. -/
theorem start_schedules_every_entry (st : SchedulerState) :
    (start st).running = true ∧
    (start st).entries.map SchedEntry.name = st.entries.map SchedEntry.name ∧
    ∃ fresh, (start st).liveTimers = st.liveTimers ++ fresh ∧
      fresh.length = st.entries.length := by
  have haux : ∀ (es : List SchedEntry) (nid : Nat) (live : List Nat),
      (startAux nid live es).2.2.map SchedEntry.name =
        es.map SchedEntry.name ∧
      ∃ fresh, (startAux nid live es).2.1 = live ++ fresh ∧
        fresh.length = es.length := by
    intro es
    induction es with
    | nil => exact fun nid live => ⟨rfl, [], by simp [startAux], rfl⟩
    | cons e es ih =>
      intro nid live
      obtain ⟨hn, fresh, hf, hl⟩ := ih (nid + 1) (live ++ [nid])
      refine ⟨by simp [startAux, hn], nid :: fresh, ?_, by simp [hl]⟩
      simp [startAux, hf]
  obtain ⟨hn, fresh, hf, hl⟩ := haux st.entries st.nextTimerId st.liveTimers
  exact ⟨rfl, hn, fresh, hf, hl⟩

/-- C10: calling `pause()` when the scheduler is not running is a complete
no-op: the guard `if (this.running)` skips the whole body, so the state
(entries, running flag, timers) is returned unchanged and no entry timer
handle is touched — in particular no TypeError is raised for entries that
have no timer handle yet. -/
theorem pause_not_running_noop (st : SchedulerState)
    (h : st.running = false) :
    pause st = .ok st := by
  simp [pause, h]

/-- Witness for C10: `pause()` before any `start()`, on a state with one
registered entry that has no timer handle, returns the state unchanged
without raising. -/
theorem pause_not_running_noop_witness :
    oneEntryState.running = false ∧ pause oneEntryState = .ok oneEntryState :=
  ⟨rfl, pause_not_running_noop oneEntryState rfl⟩

/-- C8: a truthy retention TTL below the 300-second floor makes the
startup block log a warning naming the floor and create no TTL expiry
index; a TTL expiry index — carrying the configured value — is created
only when the configured TTL exceeds the floor. -/
theorem setupTTLIndex_floor (ttl : Int) :
    (ttl ≠ 0 → ttl < 300 →
      setupTTLIndex ttl =
        (none,
         [("warn", "Not going to use a TTL that is shorter than: 300")])) ∧
    (∀ v, (setupTTLIndex ttl).1 = some v → v = ttl ∧ 300 < ttl) := by
  constructor
  · intro h0 hlt
    have hng : ¬(ttl > minTTL) := by
      simp only [minTTL]
      omega
    simp only [setupTTLIndex, if_pos h0, if_neg hng]
    decide
  · intro v hv
    by_cases h0 : ttl = 0
    · simp [setupTTLIndex, h0] at hv
    · by_cases hgt : ttl > minTTL
      · simp only [setupTTLIndex, if_pos h0, if_pos hgt] at hv
        exact ⟨(Option.some.inj hv).symm, by simpa [minTTL] using hgt⟩
      · simp [setupTTLIndex, h0, hgt] at hv

/-- Witness for C8: a configured TTL of 100 seconds yields the floor
warning and no TTL expiry index. -/
theorem setupTTLIndex_floor_witness :
    setupTTLIndex 100 =
      (none, [("warn", "Not going to use a TTL that is shorter than: 300")]) :=
  (setupTTLIndex_floor 100).1 (by decide) (by decide)

end SyncedCron
